import Mathlib

/-!
Verification development for the `semsel` library (Semver selector parsing
and constraint matching).  The definitions below are a shallow embedding of
the Python sources:

  * `src/semsel/version.py`   — `PartialVersion`, its comparison logic and
    the partial-version regular expression;
  * `src/semsel/selector.py`  — `ConditionOperator`, `VersionCondition`,
    `VersionRange`, `VersionSelector` and the matching engine;
  * `src/semsel/parser.py`    — the selector grammar tokenizer, the
    `SemselTransformer` tree transformer and `SemselParser.parse`.

Python strings are modelled as `List Char`, Python `None` as `Option.none`,
and raised exceptions as values of the `PyErr` type returned through
`Except`.  All definitions are executable so that concrete runs of the
embedded code can be evaluated inside proofs.
-/

namespace Semsel

/-- Utility `cmp` from `src/semsel/utils.py`, at type `int`/`Nat`:
`(source > target) - (source < target)`. -/
def cmpNat (a b : Nat) : Int :=
  if a < b then -1 else if b < a then 1 else 0

/-- Utility `cmp` from `src/semsel/utils.py` applied to Python strings:
Python compares strings lexicographically by code point. -/
def cmpStr : List Char → List Char → Int
  | [], [] => 0
  | [], _ :: _ => -1
  | _ :: _, [] => 1
  | a :: as', b :: bs' =>
    if a.toNat < b.toNat then -1
    else if b.toNat < a.toNat then 1
    else cmpStr as' bs'

/-- Utility `cmp` from `src/semsel/utils.py` applied to 3-tuples of ints:
Python compares tuples lexicographically. -/
def cmpTriple (x y : Nat × Nat × Nat) : Int :=
  if x.1 < y.1 then -1
  else if y.1 < x.1 then 1
  else if x.2.1 < y.2.1 then -1
  else if y.2.1 < x.2.1 then 1
  else cmpNat x.2.2 y.2.2

/-- Decide whether a character is an ASCII digit `0`-`9`. -/
def isDigitCh (c : Char) : Bool :=
  48 ≤ c.toNat && c.toNat ≤ 57

/-- Decide whether a character is an ASCII letter `a`-`z` or `A`-`Z`. -/
def isAlphaCh (c : Char) : Bool :=
  (97 ≤ c.toNat && c.toNat ≤ 122) || (65 ≤ c.toNat && c.toNat ≤ 90)

/-- Numeric value of an ASCII digit character. -/
def digitVal (c : Char) : Nat := c.toNat - 48

/-- Python `int(...)` on a decimal digit string (leading zeros allowed). -/
def digitsToNat (l : List Char) : Nat :=
  l.foldl (fun a c => 10 * a + digitVal c) 0

/-- Decimal digit character for a value below ten. -/
def digitChar (n : Nat) : Char :=
  match n with
  | 0 => '0' | 1 => '1' | 2 => '2' | 3 => '3' | 4 => '4'
  | 5 => '5' | 6 => '6' | 7 => '7' | 8 => '8' | _ => '9'

/-- Fuel-driven decimal rendering of a natural number (the fuel makes the
recursion structural; `renderNat` supplies enough fuel). -/
def renderNatAux : Nat → Nat → List Char
  | 0, _ => []
  | fuel + 1, n =>
    if n < 10 then [digitChar n]
    else renderNatAux fuel (n / 10) ++ [digitChar (n % 10)]

/-- Python `str(...)` on a non-negative `int`: canonical decimal rendering,
no leading zeros. -/
def renderNat (n : Nat) : List Char := renderNatAux (n + 1) n

/-- Language of the regex `0|[1-9][0-9]*` used for the `major`, `minor` and
`patch` groups of `PARTIAL_VERSION_PATTERN` in `src/semsel/version.py`:
a non-empty digit string with no leading zero (except `"0"` itself). -/
def validNum : List Char → Bool
  | [] => false
  | c :: cs => (c :: cs).all isDigitCh && (c ≠ '0' || cs.isEmpty)

/-- Parse one `major`/`minor`/`patch` regex group together with the `int`
cast performed by `PartialVersion.from_string`. -/
def parseNumPart (l : List Char) : Option Nat :=
  if validNum l then some (digitsToNat l) else none

/-- Split a character list at the first occurrence of `c`; the second
component is `none` when `c` does not occur. -/
def splitFirst (c : Char) : List Char → List Char × Option (List Char)
  | [] => ([], none)
  | x :: xs =>
    if x = c then ([], some xs)
    else
      let r := splitFirst c xs
      (x :: r.1, r.2)

/-- Python `value.split(".")`: dot-separated pieces, `[""]` for the empty
string, empty pieces preserved. -/
def splitDots : List Char → List (List Char)
  | [] => [[]]
  | x :: xs =>
    if x = '.' then [] :: splitDots xs
    else
      match splitDots xs with
      | [] => [[x]]
      | h :: t => (x :: h) :: t

/-- Character class `[0-9a-zA-Z-]` used by the `prerelease` and `build`
groups of `PARTIAL_VERSION_PATTERN`. -/
def isPreChar (c : Char) : Bool :=
  isDigitCh c || isAlphaCh c || c = '-'

/-- Language of one `prerelease` fragment,
`0|[1-9][0-9]*|[0-9]*[a-zA-Z-][0-9a-zA-Z-]*`: a non-empty string over
`[0-9a-zA-Z-]` which, when purely numeric, has no leading zero. -/
def validPreFrag (l : List Char) : Bool :=
  !l.isEmpty && l.all isPreChar && (!(l.all isDigitCh) || validNum l)

/-- Language of the full `prerelease` group: dot-separated valid fragments. -/
def validPre (l : List Char) : Bool :=
  (splitDots l).all validPreFrag

/-- Language of one `build` fragment, `[0-9a-zA-Z-]+`. -/
def validBuildFrag (l : List Char) : Bool :=
  !l.isEmpty && l.all isPreChar

/-- Language of the full `build` group: dot-separated valid fragments. -/
def validBuild (l : List Char) : Bool :=
  (splitDots l).all validBuildFrag

/-- `PartialVersion` from `src/semsel/version.py`: a partial Semver version.
`minor`, `patch`, `prerelease` and `build` default to `None` in the Python
attrs class; no construction-time validation is performed. -/
structure PartialVersion where
  major : Nat
  minor : Option Nat := none
  patch : Option Nat := none
  prerelease : Option (List Char) := none
  build : Option (List Char) := none
deriving Repr, DecidableEq

/-- One prerelease identifier after `cast_fragment` in
`PartialVersion.prerelease_compare`: either an `int` or a string. -/
inductive Fragment where
  | num (n : Nat)
  | str (s : List Char)
deriving Repr, DecidableEq

/-- `cast_fragment` in `PartialVersion.prerelease_compare`: a fragment
matching `^[0-9]+$` is cast with `int(...)`, anything else stays a string. -/
def castFragment (l : List Char) : Fragment :=
  if !l.isEmpty && l.all isDigitCh then .num (digitsToNat l) else .str l

/-- `compare_part` in `PartialVersion.prerelease_compare`: ints compare
numerically, an int is lower than a string, strings compare lexically. -/
def comparePart : Fragment → Fragment → Int
  | .num x, .num y => cmpNat x y
  | .num _, .str _ => -1
  | .str _, .num _ => 1
  | .str x, .str y => cmpStr x y

/-- The `for`/`zip` loop of `PartialVersion.prerelease_compare`: the first
non-zero pairwise comparison, if any. -/
def firstNonzero : List Fragment → List Fragment → Option Int
  | a :: as', b :: bs' =>
    let c := comparePart a b
    if c = 0 then firstNonzero as' bs' else some c
  | _, _ => none

/-- `PartialVersion.prerelease_compare` from `src/semsel/version.py`.
`source or ""` maps `None` (and `""`) to the empty string; when every zipped
fragment pair is equal the character lengths of the two strings decide. -/
def PartialVersion.prerelease_compare (source target : Option (List Char)) : Int :=
  let s := source.getD []
  let t := target.getD []
  let sf := (splitDots s).map castFragment
  let tf := (splitDots t).map castFragment
  match firstNonzero sf tf with
  | some c => c
  | none => cmpNat s.length t.length

/-- Python truthiness of an `Optional[str]`: `None` and `""` are falsy. -/
def pyTruthy (o : Option (List Char)) : Bool :=
  match o with
  | none => false
  | some s => !s.isEmpty

/-- `PartialVersion.compare` from `src/semsel/version.py` (the branch for a
`PartialVersion` argument): lexicographic on `(major, minor or 0, patch or 0)`
first, then the Semver prerelease rules, with a missing prerelease ranking
above a present one. -/
def PartialVersion.compare (self other : PartialVersion) : Int :=
  let c := cmpTriple (self.major, self.minor.getD 0, self.patch.getD 0)
    (other.major, other.minor.getD 0, other.patch.getD 0)
  if c ≠ 0 then c
  else
    let pc := PartialVersion.prerelease_compare self.prerelease other.prerelease
    if pc = 0 then 0
    else if !pyTruthy self.prerelease then 1
    else if !pyTruthy other.prerelease then -1
    else pc

/-- `PartialVersion.__eq__`: equality is `compare(...) == 0`. -/
def PartialVersion.pyEq (self other : PartialVersion) : Bool :=
  self.compare other == 0

/-- `PartialVersion.__le__`: `compare(...) <= 0`. -/
def PartialVersion.pyLe (self other : PartialVersion) : Bool :=
  decide (self.compare other ≤ 0)

/-- `PartialVersion.__lt__`: `compare(...) < 0`. -/
def PartialVersion.pyLt (self other : PartialVersion) : Bool :=
  decide (self.compare other < 0)

/-- `PartialVersion.__major__`: the other version uses the same major. -/
def PartialVersion.majorScope (self other : PartialVersion) : Bool :=
  other.major == self.major

/-- `PartialVersion.__minor__`: same major and
`(other.minor or 0) <= (self.minor or 0)`. -/
def PartialVersion.minorScope (self other : PartialVersion) : Bool :=
  other.major == self.major && other.minor.getD 0 ≤ self.minor.getD 0

/-- Full match of `PARTIAL_VERSION_PATTERN` from `src/semsel/version.py`,
combined with the group extraction and `int` casts of
`PartialVersion.from_string`/`from_dict`.  The pattern is
`MAJOR(\.MINOR(\.PATCH(-PRERELEASE)?(\+BUILD)?)?)?` anchored on both sides.
Since `+` occurs in no group but `build`'s separator, the first `+` splits
off the build part; since `-` cannot occur before the prerelease separator,
the first `-` of the remainder splits off the prerelease; what is left must
be one, two or three dot-separated `0|[1-9][0-9]*` groups, with prerelease
and build admissible only in the three-component (patch) case. -/
def fullmatchPV (l : List Char) : Option PartialVersion :=
  let s1 := splitFirst '+' l
  let bu := s1.2
  let s2 := splitFirst '-' s1.1
  let pre := s2.2
  if !(match bu with | none => true | some b => validBuild b) then none
  else if !(match pre with | none => true | some p => validPre p) then none
  else
    match splitDots s2.1 with
    | [m] =>
      if pre.isSome || bu.isSome then none
      else
        match parseNumPart m with
        | some ma => some { major := ma }
        | none => none
    | [m, mi] =>
      if pre.isSome || bu.isSome then none
      else
        match parseNumPart m, parseNumPart mi with
        | some ma, some mi' => some { major := ma, minor := some mi' }
        | _, _ => none
    | [m, mi, pa] =>
      match parseNumPart m, parseNumPart mi, parseNumPart pa with
      | some ma, some mi', some pa' =>
        some { major := ma, minor := some mi', patch := some pa',
               prerelease := pre, build := bu }
      | _, _, _ => none
    | _ => none

/-- Python exception values observable through the library, modelled as
data.  `parseFailure` and `invalidExpression` are the two exception classes
declared in `src/semsel/exceptions.py` (both subclasses of
`SemselException`); `valueError` and `typeError` are Python builtins;
`unexpectedCharacters` and `unexpectedEOF` are the lark lexer/parser
errors; `visitError` is lark's `VisitError` envelope holding the original
exception (`orig_exc`). -/
inductive PyErr where
  | parseFailure (msg : String)
  | invalidExpression (msg : String)
  | valueError (msg : String)
  | typeError (msg : String)
  | unexpectedCharacters
  | unexpectedEOF
  | visitError (orig : PyErr)
deriving Repr, DecidableEq

deriving instance DecidableEq for Except

/-- Whether an exception value belongs to one of the exception classes
declared by the library in `src/semsel/exceptions.py`
(`isinstance(e, (ParseFailure, InvalidExpression))`). -/
def PyErr.isSemselException : PyErr → Bool
  | .parseFailure _ => true
  | .invalidExpression _ => true
  | _ => false

/-- Whether an exception value is one of the grammar-engine-internal lark
exceptions (lexer/parser errors or the visitation envelope). -/
def PyErr.isLarkInternal : PyErr → Bool
  | .unexpectedCharacters => true
  | .unexpectedEOF => true
  | .visitError _ => true
  | _ => false

/-- `PartialVersion.from_string`: full-match the string against
`PARTIAL_VERSION_PATTERN` and build the instance from the matched groups
(via `from_dict` with `int` casts); a non-matching string raises the
builtin `ValueError` with the message
`f"{version!r} is not a valid partial semantic version"`. -/
def PartialVersion.from_string (version : String) : Except PyErr PartialVersion :=
  match fullmatchPV version.toList with
  | some v => .ok v
  | none =>
    .error (.valueError ("'" ++ version ++ "' is not a valid partial semantic version"))

/-- `PartialVersion.from_dict`: directly equivalent to calling the
constructor with the dict as keyword arguments. -/
def PartialVersion.from_dict (major : Nat) (minor patch : Option Nat)
    (prerelease build : Option (List Char)) : PartialVersion :=
  { major := major, minor := minor, patch := patch,
    prerelease := prerelease, build := build }

/-- `PartialVersion.from_tuple`: forwards the tuple's components to the
constructor; a tuple shorter than five entries leaves the trailing
`prerelease`/`build` components as `None`, which the `Option` arguments
here model directly.  No validation is performed. -/
def PartialVersion.from_tuple
    (t : Nat × Option Nat × Option Nat × Option (List Char) × Option (List Char)) :
    PartialVersion :=
  { major := t.1, minor := t.2.1, patch := t.2.2.1,
    prerelease := t.2.2.2.1, build := t.2.2.2.2 }

/-- `PartialVersion.to_tuple`: `(major, minor or 0, patch or 0, prerelease,
build)`. -/
def PartialVersion.to_tuple (self : PartialVersion) :
    Nat × Nat × Nat × Option (List Char) × Option (List Char) :=
  (self.major, self.minor.getD 0, self.patch.getD 0, self.prerelease, self.build)

/-- `PartialVersion.__str__`: render `major`, then `.minor`, `.patch`,
`-prerelease`, `+build`, each only when set. -/
def pvChars (v : PartialVersion) : List Char :=
  renderNat v.major
    ++ (match v.minor with | some m => '.' :: renderNat m | none => [])
    ++ (match v.patch with | some p => '.' :: renderNat p | none => [])
    ++ (match v.prerelease with | some pr => '-' :: pr | none => [])
    ++ (match v.build with | some b => '+' :: b | none => [])

/-- `str(...)` of a `PartialVersion` as a Lean `String`. -/
def pvStr (v : PartialVersion) : String := String.mk (pvChars v)

/-- `ConditionOperator` from `src/semsel/selector.py`: the seven condition
operator symbols. -/
inductive ConditionOperator where
  | EQ | GT | GE | LT | LE | MAJOR | MINOR
deriving Repr, DecidableEq

/-- The `value` of a `ConditionOperator` member. -/
def ConditionOperator.value : ConditionOperator → String
  | .EQ => "=" | .GT => ">" | .GE => ">=" | .LT => "<" | .LE => "<="
  | .MAJOR => "^" | .MINOR => "~"

/-- `ConditionOperator(token.value)`: look a member up by its value,
`none` when the string is not a member value (Python raises `ValueError`). -/
def ConditionOperator.ofValue : List Char → Option ConditionOperator
  | ['='] => some .EQ
  | ['>'] => some .GT
  | ['>', '='] => some .GE
  | ['<'] => some .LT
  | ['<', '='] => some .LE
  | ['^'] => some .MAJOR
  | ['~'] => some .MINOR
  | _ => none

/-- The `__condition_comparisons` dict of `VersionCondition`: allowed
`compare` results keyed by operator; `MAJOR` and `MINOR` have no entry. -/
def conditionComparisons : ConditionOperator → Option (List Int)
  | .EQ => some [0]
  | .GT => some [1]
  | .GE => some [0, 1]
  | .LT => some [-1]
  | .LE => some [-1, 0]
  | _ => none

/-- The `__range_comparisons` dict of `VersionCondition`: allowed
`compare` results against a range's start and end, keyed by operator. -/
def rangeComparisons : ConditionOperator → Option (List Int × List Int)
  | .EQ => some ([0, 1], [-1, 0])
  | .GT => some ([-1, 0, 1], [-1])
  | .GE => some ([-1, 0, 1], [-1, 0])
  | .LT => some ([1], [-1, 0, 1])
  | .LE => some ([0, 1], [-1, 0, 1])
  | _ => none

/-- `VersionCondition` from `src/semsel/selector.py`: an operator applied
to a partial version.  The attrs class generates no structural equality
(`cmp=False`). -/
structure VersionCondition where
  operator : ConditionOperator
  version : PartialVersion
deriving Repr, DecidableEq

/-- `str(...)` of a `VersionCondition`: operator symbol then version. -/
def condStr (c : VersionCondition) : String :=
  c.operator.value ++ pvStr c.version

/-- `VersionCondition.__attrs_post_init__`: constructing a minor-constrained
condition whose version has no explicit minor raises `InvalidExpression`. -/
def mkVersionCondition (operator : ConditionOperator) (version : PartialVersion) :
    Except PyErr VersionCondition :=
  if operator = .MINOR && version.minor.isNone then
    .error (.invalidExpression
      ("Condition version " ++ condStr ⟨operator, version⟩ ++
       " with minor constraint (~) must include an explicit minor version"))
  else .ok ⟨operator, version⟩

/-- The body of `VersionCondition._match_minor` after its operator guard
(the guard raises `ValueError` unless `self.operator == MINOR`; the method
is only ever invoked by `_match_condition` under exactly that condition).
Per the source's own note, a `MINOR` condition always carries an explicit
minor version, so `self.version.minor` is read with `or 0` here. -/
def matchMinorBody (self other : VersionCondition) : Bool :=
  match other.operator with
  | .MAJOR => self.version.majorScope other.version
  | .MINOR => self.version.minorScope other.version
  | op =>
    if self.version.major == other.version.major then
      match conditionComparisons op with
      | some t => t.contains (cmpNat (self.version.minor.getD 0) (other.version.minor.getD 0))
      | none => false
    else
      match conditionComparisons op with
      | some t => t.contains (self.version.compare other.version)
      | none => false

/-- `VersionCondition._match_minor` including its `ValueError` guard. -/
def VersionCondition.matchMinor (self other : VersionCondition) : Except PyErr Bool :=
  if self.operator ≠ .MINOR then
    .error (.valueError
      ("Condition " ++ condStr self ++ " is not constrained by a minor operator"))
  else .ok (matchMinorBody self other)

/-- The body of `VersionCondition._match_major` after its operator guard:
against another `MAJOR`/`MINOR` condition only the majors must agree;
against a standard operator the majors are compared against that operator's
result set extended with `(0,)`. -/
def matchMajorBody (self other : VersionCondition) : Bool :=
  match other.operator with
  | .MAJOR => self.version.major == other.version.major
  | .MINOR => self.version.major == other.version.major
  | op =>
    match conditionComparisons op with
    | some t => (t ++ [0]).contains (cmpNat self.version.major other.version.major)
    | none => false

/-- `VersionCondition._match_major` including its `ValueError` guard. -/
def VersionCondition.matchMajor (self other : VersionCondition) : Except PyErr Bool :=
  if self.operator ≠ .MAJOR then
    .error (.valueError
      ("Condition " ++ condStr self ++ " is not constrained by a major operator"))
  else .ok (matchMajorBody self other)

/-- `VersionCondition._match_condition`: dispatch on `self.operator` —
`MAJOR`/`MINOR` go to their dedicated helpers, a standard operator compares
`self.version.compare(other.version)` against `self`'s result set (an
operator missing from the dict warns and returns `False`). -/
def VersionCondition.matchCondition (self other : VersionCondition) : Bool :=
  match self.operator with
  | .MAJOR => matchMajorBody self other
  | .MINOR => matchMinorBody self other
  | op =>
    match conditionComparisons op with
    | none => false
    | some t => t.contains (self.version.compare other.version)

/-- `VersionRange` from `src/semsel/selector.py`: a closed interval between
two partial versions.  The attrs class generates no structural equality
(`cmp=False`). -/
structure VersionRange where
  version_start : PartialVersion
  version_end : PartialVersion
deriving Repr, DecidableEq

/-- `str(...)` of a `VersionRange`: `start - end`. -/
def rangeStr (r : VersionRange) : String :=
  pvStr r.version_start ++ " - " ++ pvStr r.version_end

/-- `VersionRange.__attrs_post_init__`: an end not strictly greater than
the start raises `InvalidExpression`. -/
def mkVersionRange (version_start version_end : PartialVersion) :
    Except PyErr VersionRange :=
  if version_end.pyLe version_start then
    .error (.invalidExpression
      ("Ending version " ++ pvStr version_end ++
       " is less or equal to the starting version " ++ pvStr version_start ++
       " in '" ++ rangeStr ⟨version_start, version_end⟩ ++ "'"))
  else .ok ⟨version_start, version_end⟩

/-- `VersionCondition._match_range`: `MAJOR`/`MINOR` conditions accept a
range whose start or end falls in their major/minor scope; a standard
operator compares against the range's start and end with the paired result
sets of `__range_comparisons`. -/
def VersionCondition.matchRange (self : VersionCondition) (range' : VersionRange) : Bool :=
  match self.operator with
  | .MAJOR =>
    self.version.majorScope range'.version_start ||
      self.version.majorScope range'.version_end
  | .MINOR =>
    self.version.minorScope range'.version_start ||
      self.version.minorScope range'.version_end
  | op =>
    match rangeComparisons op with
    | none => false
    | some (ts, te) =>
      ts.contains (self.version.compare range'.version_start) &&
        te.contains (self.version.compare range'.version_end)

/-- `VersionRange._match_range`: two ranges are compatible iff they
overlap — `self.start <= other.end and other.start <= self.end`. -/
def VersionRange.matchRange (self other : VersionRange) : Bool :=
  self.version_start.pyLe other.version_end &&
    other.version_start.pyLe self.version_end

/-- A clause entry: `Union[VersionCondition, VersionRange]`. -/
inductive SelEntry where
  | cond (c : VersionCondition)
  | range (r : VersionRange)
deriving Repr, DecidableEq

/-- Whether an entry is a `VersionRange` (the `isinstance` test used by the
`match` dispatch). -/
def SelEntry.isRange : SelEntry → Bool
  | .cond _ => false
  | .range _ => true

/-- The `match` methods of `VersionCondition` and `VersionRange` combined
over the union type: a condition dispatches on the type of its argument;
`VersionRange.match` delegates condition arguments back to
`VersionCondition._match_range` and overlaps against ranges. -/
def SelEntry.matches : SelEntry → SelEntry → Bool
  | .cond c, .cond d => c.matchCondition d
  | .cond c, .range r => c.matchRange r
  | .range r, .cond c => c.matchRange r
  | .range r, .range s => r.matchRange s

/-- `str(...)` of a clause entry. -/
def SelEntry.str : SelEntry → String
  | .cond c => condStr c
  | .range r => rangeStr r

/-- `VersionSelector` from `src/semsel/selector.py`: OR-clauses of
AND-clauses.  The attrs-generated `__init__` accepts exactly one argument,
`clauses` — it has no `validate` parameter. -/
structure VersionSelector where
  clauses : List (List SelEntry)
deriving Repr, DecidableEq

/-- `itertools.combinations(clause, 2)`: ordered pairs of distinct
positions, in order. -/
def pairsOf : List SelEntry → List (SelEntry × SelEntry)
  | [] => []
  | x :: xs => xs.map (fun y => (x, y)) ++ pairsOf xs

/-- `VersionSelector._format_clause`: space-joined entry renderings. -/
def formatClause (clause : List SelEntry) : String :=
  String.intercalate " " (clause.map SelEntry.str)

/-- The first conflicting pair of a clause, if any (`source.match(target)`
checked in `combinations` order). -/
def findConflict (clause : List SelEntry) : Option (SelEntry × SelEntry) :=
  (pairsOf clause).find? (fun p => !(p.1.matches p.2))

/-- `VersionSelector.__attrs_post_init__` over all clauses: the first
conflicting pair raises `InvalidExpression`; otherwise the instance is
built.  (This models `VersionSelector(clauses=...)`, the only call
signature the attrs class generates.) -/
def mkVersionSelector (clauses : List (List SelEntry)) : Except PyErr VersionSelector :=
  match clauses.find? (fun cl => (findConflict cl).isSome) with
  | some cl =>
    match findConflict cl with
    | some (s, t) =>
      .error (.invalidExpression
        ("Expression " ++ s.str ++ " conflicts with expression " ++ t.str ++
         " in clause '" ++ formatClause cl ++ "'"))
    | none => .ok ⟨clauses⟩
  | none => .ok ⟨clauses⟩

/-- A `version` node of the grammar in `src/semsel/parser.py` before
transformation: the matched `MAJOR`/`MINOR`/`PATCH`/`PRERELEASE`/`BUILD`
token texts (each named terminal occurs at most once per node; the
anonymous `.`/`-`/`+` literals are filtered from lark trees). -/
structure RawVersion where
  major : List Char
  minor : Option (List Char) := none
  patch : Option (List Char) := none
  prerelease : Option (List Char) := none
  build : Option (List Char) := none
deriving Repr, DecidableEq

/-- A `version_condition` or `version_range` node before transformation:
a condition holds an optional `OPERATOR` token text and a version node, a
range holds its two version nodes. -/
inductive RawItem where
  | condition (op : Option (List Char)) (v : RawVersion)
  | range (v1 v2 : RawVersion)
deriving Repr, DecidableEq

/-- A tokenized `selector` tree: the list of `version_clause` nodes, each a
list of condition/range nodes. -/
def RawTree := List (List RawItem)
deriving instance Repr, DecidableEq for RawTree

/-- Maximal run of ASCII digits (the greedy `VERSION_DIGIT` terminal,
which — unlike the `version.py` regex — allows leading zeros). -/
def takeDigits (l : List Char) : List Char × List Char :=
  (l.takeWhile isDigitCh, l.dropWhile isDigitCh)

/-- Maximal run of `[0-9a-zA-Z-]` characters (one `PRERELEASE`/`BUILD`
fragment of the grammar's terminals). -/
def takeFrag (l : List Char) : List Char × List Char :=
  (l.takeWhile isPreChar, l.dropWhile isPreChar)

/-- Greedy continuation of a `PRERELEASE`/`BUILD` terminal: consume
`"." fragment` repetitions while present, returning the consumed token text
and the rest.  The fuel makes the recursion structural. -/
def fragsLoop : Nat → List Char → List Char × List Char
  | 0, l => ([], l)
  | fuel + 1, l =>
    match l with
    | '.' :: rest =>
      let fr := takeFrag rest
      if fr.1.isEmpty then ([], l)
      else
        let cont := fragsLoop fuel fr.2
        ('.' :: fr.1 ++ cont.1, cont.2)
    | _ => ([], l)

/-- Lex one full `PRERELEASE` or `BUILD` terminal (at least one fragment). -/
def lexFrags (l : List Char) : Except PyErr (List Char × List Char) :=
  let fr := takeFrag l
  if fr.1.isEmpty then
    if l.isEmpty then .error .unexpectedEOF else .error .unexpectedCharacters
  else
    let cont := fragsLoop fr.2.length fr.2
    .ok (fr.1 ++ cont.1, cont.2)

/-- Lex one `version` node,
`MAJOR ("." MINOR ("." PATCH ("-" PRERELEASE)? ("+" BUILD)?)?)?`.
A `.`/`-`/`+` continuation commits to the inner group (no other parse of
the grammar can consume those characters at this point). -/
def lexVersion (l : List Char) : Except PyErr (RawVersion × List Char) :=
  let dM := takeDigits l
  if dM.1.isEmpty then
    if l.isEmpty then .error .unexpectedEOF else .error .unexpectedCharacters
  else
    match dM.2 with
    | '.' :: r2 =>
      let dmi := takeDigits r2
      if dmi.1.isEmpty then
        if r2.isEmpty then .error .unexpectedEOF else .error .unexpectedCharacters
      else
        match dmi.2 with
        | '.' :: r3 =>
          let dpa := takeDigits r3
          if dpa.1.isEmpty then
            if r3.isEmpty then .error .unexpectedEOF else .error .unexpectedCharacters
          else
            match dpa.2 with
            | '-' :: r4 =>
              match lexFrags r4 with
              | .error e => .error e
              | .ok (pre, r5) =>
                match r5 with
                | '+' :: r6 =>
                  match lexFrags r6 with
                  | .error e => .error e
                  | .ok (bu, r7) =>
                    .ok ({ major := dM.1, minor := some dmi.1, patch := some dpa.1,
                           prerelease := some pre, build := some bu }, r7)
                | _ =>
                  .ok ({ major := dM.1, minor := some dmi.1, patch := some dpa.1,
                         prerelease := some pre }, r5)
            | '+' :: r4 =>
              match lexFrags r4 with
              | .error e => .error e
              | .ok (bu, r5) =>
                .ok ({ major := dM.1, minor := some dmi.1, patch := some dpa.1,
                       build := some bu }, r5)
            | r =>
              .ok ({ major := dM.1, minor := some dmi.1, patch := some dpa.1 }, r)
        | r => .ok ({ major := dM.1, minor := some dmi.1 }, r)
    | r => .ok ({ major := dM.1 }, r)

/-- Lex one `OPERATOR` terminal if present (the two-character operators
`>=`/`<=` are matched before `>`/`<`, as in the terminal's alternation). -/
def lexOperator : List Char → Option (List Char × List Char)
  | '>' :: '=' :: r => some (['>', '='], r)
  | '<' :: '=' :: r => some (['<', '='], r)
  | '=' :: r => some (['='], r)
  | '>' :: r => some (['>'], r)
  | '<' :: r => some (['<'], r)
  | '^' :: r => some (['^'], r)
  | '~' :: r => some (['~'], r)
  | _ => none

/-- Parse one clause item: `version_condition: OPERATOR? " "? version` or
`version_range: version " - " version`.  A range (only possible without an
operator) is recognised by the literal `" - "` after the first version —
no other grammar production can consume that text. -/
def parseItem (l : List Char) : Except PyErr (RawItem × List Char) :=
  match lexOperator l with
  | some (op, r) =>
    let r' := match r with | ' ' :: rr => rr | _ => r
    match lexVersion r' with
    | .error e => .error e
    | .ok (v, rest) => .ok (.condition (some op) v, rest)
  | none =>
    match lexVersion l with
    | .error e => .error e
    | .ok (v1, r1) =>
      match r1 with
      | ' ' :: '-' :: ' ' :: r2 =>
        match lexVersion r2 with
        | .error e => .error e
        | .ok (v2, r3) => .ok (.range v1 v2, r3)
      | _ => .ok (.condition none v1, r1)

/-- Consume one optional `" "` (the `" "?` before/after `"||"`). -/
def skipSpaceOne : List Char → List Char
  | ' ' :: r => r
  | r => r

/-- Continue a `version_clause` after an item: the clause ends at the end
of input or before `"||"` (optionally preceded by one space, which the
selector rule owns); a single space followed by anything else separates the
next item.  Returns the clause and `some rest` when a `"||"` was consumed
(with its optional trailing space), `none` at the end of input. -/
def clauseRest : Nat → List RawItem → List Char →
    Except PyErr (List RawItem × Option (List Char))
  | 0, _, _ => .error .unexpectedEOF
  | fuel + 1, acc, l =>
    match l with
    | [] => .ok (acc.reverse, none)
    | '|' :: '|' :: r => .ok (acc.reverse, some (skipSpaceOne r))
    | ' ' :: '|' :: '|' :: r => .ok (acc.reverse, some (skipSpaceOne r))
    | ' ' :: r =>
      match parseItem r with
      | .error e => .error e
      | .ok (it, r2) => clauseRest fuel (it :: acc) r2
    | _ => .error .unexpectedCharacters

/-- Parse one full `version_clause`. -/
def parseClause (l : List Char) : Except PyErr (List RawItem × Option (List Char)) :=
  match parseItem l with
  | .error e => .error e
  | .ok (it, r) => clauseRest (r.length + 1) [it] r

/-- Parse the `selector` rule: clauses joined by `" "? "||" " "?`. -/
def selectorLoop : Nat → List (List RawItem) → List Char → Except PyErr RawTree
  | 0, _, _ => .error .unexpectedEOF
  | fuel + 1, acc, l =>
    match parseClause l with
    | .error e => .error e
    | .ok (cl, none) => .ok (cl :: acc).reverse
    | .ok (cl, some r) => selectorLoop fuel (cl :: acc) r

/-- Python `str.strip()` restricted to ASCII whitespace. -/
def pyStrip (l : List Char) : List Char :=
  ((l.dropWhile (fun c => c = ' ' || c = '\t' || c = '\n' || c = '\r')).reverse.dropWhile
    (fun c => c = ' ' || c = '\t' || c = '\n' || c = '\r')).reverse

/-- `SemselParser.tokenize`: strip the input and run the lark parser for
the grammar of `src/semsel/parser.py`, producing the `selector` tree or a
lark lexer/parser error. -/
def tokenize (content : String) : Except PyErr RawTree :=
  let l := pyStrip content.toList
  selectorLoop (l.length + 1) [] l

/-- The `version` callback of `SemselTransformer` combined with the
`MAJOR`/`MINOR`/`PATCH` token callbacks: the digit tokens are `int`-cast
and the fragments are assembled through `PartialVersion.from_dict`. -/
def transformRawVersion (rv : RawVersion) : PartialVersion :=
  PartialVersion.from_dict (digitsToNat rv.major) (rv.minor.map digitsToNat)
    (rv.patch.map digitsToNat) rv.prerelease rv.build

/-- Transformation of one clause entry: the `OPERATOR` token callback
(`ConditionOperator(token.value)`), then the `version_condition` or
`version_range` callback.  A condition without an operator token gets the
implicit equality operator.  Exceptions raised inside a callback are
wrapped by lark in a `VisitError` carrying the original exception. -/
def transformItem : RawItem → Except PyErr SelEntry
  | .condition none rv =>
    match mkVersionCondition .EQ (transformRawVersion rv) with
    | .ok c => .ok (.cond c)
    | .error e => .error (.visitError e)
  | .condition (some opTok) rv =>
    match ConditionOperator.ofValue opTok with
    | none =>
      .error (.visitError (.valueError
        ("'" ++ String.mk opTok ++ "' is not a valid ConditionOperator")))
    | some op =>
      match mkVersionCondition op (transformRawVersion rv) with
      | .ok c => .ok (.cond c)
      | .error e => .error (.visitError e)
  | .range rv1 rv2 =>
    match mkVersionRange (transformRawVersion rv1) (transformRawVersion rv2) with
    | .ok r => .ok (.range r)
    | .error e => .error (.visitError e)

/-- The `version_clause` callback passes the transformed children through
unchanged; the first wrapped error of a child propagates. -/
def transformClause (c : List RawItem) : Except PyErr (List SelEntry) :=
  c.mapM transformItem

/-- `SemselTransformer.transform` on a `selector` tree.  After all clauses
transform, the `selector` callback runs
`VersionSelector(clauses=tokens, validate=self.__validate)` — but the attrs
`__init__` of `VersionSelector` (see `VersionSelector` above) accepts only
`clauses`, so the call itself raises
`TypeError: __init__() got an unexpected keyword argument 'validate'`,
which lark wraps in a `VisitError`, for every input and regardless of the
`validate` flag's value. -/
def transformTree (_validate : Bool) (t : RawTree) : Except PyErr VersionSelector :=
  match t.mapM transformClause with
  | .error e => .error e
  | .ok _clauses =>
    .error (.visitError
      (.typeError "__init__() got an unexpected keyword argument 'validate'"))

/-- `SemselParser.parse` from `src/semsel/parser.py`: tokenize (errors from
the lark parser propagate uncaught — only `VisitError` is handled), then
transform; a `VisitError` whose original exception is a `ParseFailure` or
`InvalidExpression` is re-raised as that original exception, any other
`VisitError` is re-raised unchanged. -/
def SemselParser.parse (content : String) (validate : Bool := true) :
    Except PyErr VersionSelector :=
  match tokenize content with
  | .error e => .error e
  | .ok t =>
    match transformTree validate t with
    | .ok vs => .ok vs
    | .error (.visitError orig) =>
      if orig.isSemselException then .error orig else .error (.visitError orig)
    | .error e => .error e

/-- Python object identity: a Python object is its payload together with
its `id()`.  `attr.s(cmp=False)` classes fall back to the default `==`,
which is identity; `PartialVersion` overrides `__eq__` via `compare`. -/
structure PyObj (α : Type) where
  val : α
  objId : Nat
deriving Repr, DecidableEq

/-- Python `==` between two `VersionCondition` objects: the class is
declared with `cmp=False`, so the default identity comparison applies. -/
def pyEqCondObj (a b : PyObj VersionCondition) : Bool :=
  a.objId == b.objId

/-- Python `==` between two `VersionRange` objects: the class is declared
with `cmp=False`, so the default identity comparison applies. -/
def pyEqRangeObj (a b : PyObj VersionRange) : Bool :=
  a.objId == b.objId

/-- Python `==` between two `PartialVersion` objects: `__eq__` is defined
and delegates to `compare`, so identity is irrelevant. -/
def pyEqPVObj (a b : PyObj PartialVersion) : Bool :=
  a.val.pyEq b.val

theorem cmpStr_self (s : List Char) : cmpStr s s = 0 := by
  induction s with
  | nil => rfl
  | cons a as' ih => simp [cmpStr, ih]

theorem comparePart_self (f : Fragment) : comparePart f f = 0 := by
  cases f with
  | num n => simp [comparePart, cmpNat]
  | str s => simp [comparePart, cmpStr_self]

theorem firstNonzero_self (l : List Fragment) : firstNonzero l l = none := by
  induction l with
  | nil => rfl
  | cons a as' ih => simp [firstNonzero, comparePart_self, ih]

theorem prerelease_compare_self (p : Option (List Char)) :
    PartialVersion.prerelease_compare p p = 0 := by
  simp [PartialVersion.prerelease_compare, firstNonzero_self, cmpNat]

theorem compare_self (v : PartialVersion) : v.compare v = 0 := by
  simp [PartialVersion.compare, cmpTriple, cmpNat, prerelease_compare_self]

theorem pyEq_self (v : PartialVersion) : v.pyEq v = true := by
  simp [PartialVersion.pyEq, compare_self]

theorem digitsToNat_append (l : List Char) (c : Char) :
    digitsToNat (l ++ [c]) = 10 * digitsToNat l + digitVal c := by
  simp [digitsToNat, List.foldl_append]

theorem digitVal_digitChar (m : Nat) (h : m < 10) : digitVal (digitChar m) = m := by
  have h10 : m = 0 ∨ m = 1 ∨ m = 2 ∨ m = 3 ∨ m = 4 ∨ m = 5 ∨ m = 6 ∨ m = 7 ∨
      m = 8 ∨ m = 9 := by omega
  rcases h10 with h' | h' | h' | h' | h' | h' | h' | h' | h' | h' <;> subst h' <;> decide

theorem isDigitCh_digitChar (m : Nat) : isDigitCh (digitChar m) = true := by
  rcases m with _ | _ | _ | _ | _ | _ | _ | _ | _ | m <;> rfl

theorem digitChar_ne_zero (m : Nat) (h1 : 1 ≤ m) (h2 : m < 10) : digitChar m ≠ '0' := by
  intro heq
  have := digitVal_digitChar m h2
  rw [heq] at this
  simp [digitVal] at this
  omega

theorem validNum_ne_nil (l : List Char) (h : validNum l = true) : l ≠ [] := by
  cases l with
  | nil => simp [validNum] at h
  | cons c cs => simp

theorem validNum_all_digits (l : List Char) (h : validNum l = true) :
    l.all isDigitCh = true := by
  cases l with
  | nil => simp [validNum] at h
  | cons c cs => simp only [validNum, Bool.and_eq_true] at h; exact h.1

theorem validNum_append_digit (l : List Char) (c : Char) (h1 : validNum l = true)
    (h2 : isDigitCh c = true) (h3 : l.head? ≠ some '0') :
    validNum (l ++ [c]) = true := by
  cases l with
  | nil => simp [validNum] at h1
  | cons a t =>
    simp only [validNum, Bool.and_eq_true, List.all_cons] at h1
    have ha : a ≠ '0' := by
      intro hz
      exact h3 (by simp [hz])
    simp [validNum, List.all_append, h1.1.1, h1.1.2, h2, ha]

theorem renderNatAux_spec (n : Nat) : ∀ fuel, n < fuel →
    validNum (renderNatAux fuel n) = true ∧
    digitsToNat (renderNatAux fuel n) = n ∧
    (1 ≤ n → (renderNatAux fuel n).head? ≠ some '0') := by
  induction n using Nat.strong_induction_on with
  | _ n IH =>
    intro fuel hf
    match fuel, hf with
    | fuel + 1, hf =>
      by_cases h10 : n < 10
      · have hstep : renderNatAux (fuel + 1) n = [digitChar n] := by
          simp [renderNatAux, h10]
        rw [hstep]
        refine ⟨?_, ?_, ?_⟩
        · simp [validNum, isDigitCh_digitChar]
        · simp [digitsToNat, digitVal_digitChar n h10]
        · intro h1
          simp [digitChar_ne_zero n h1 h10]
      · have hdiv : n / 10 < n := Nat.div_lt_self (by omega) (by omega)
        have hf' : n / 10 < fuel := by omega
        obtain ⟨hv, hd, hh⟩ := IH (n / 10) hdiv fuel hf'
        have hne : renderNatAux fuel (n / 10) ≠ [] := validNum_ne_nil _ hv
        have hh' : (renderNatAux fuel (n / 10)).head? ≠ some '0' := hh (by omega)
        have hstep : renderNatAux (fuel + 1) n =
            renderNatAux fuel (n / 10) ++ [digitChar (n % 10)] := by
          simp [renderNatAux, h10]
        refine ⟨?_, ?_, ?_⟩
        · rw [hstep]
          exact validNum_append_digit _ _ hv (isDigitCh_digitChar _) hh'
        · rw [hstep, digitsToNat_append, hd, digitVal_digitChar _ (Nat.mod_lt _ (by omega))]
          omega
        · intro _
          rw [hstep]
          cases hl : renderNatAux fuel (n / 10) with
          | nil => exact absurd hl hne
          | cons a t =>
            rw [hl] at hh'
            simpa using hh'

theorem renderNat_valid (n : Nat) : validNum (renderNat n) = true :=
  (renderNatAux_spec n (n + 1) (Nat.lt_succ_self n)).1

theorem digitsToNat_renderNat (n : Nat) : digitsToNat (renderNat n) = n :=
  (renderNatAux_spec n (n + 1) (Nat.lt_succ_self n)).2.1

theorem parseNumPart_renderNat (n : Nat) : parseNumPart (renderNat n) = some n := by
  simp [parseNumPart, renderNat_valid, digitsToNat_renderNat]

theorem renderNat_all_digits (n : Nat) : (renderNat n).all isDigitCh = true :=
  validNum_all_digits _ (renderNat_valid n)

theorem splitFirst_of_not_mem (c : Char) (l : List Char) (h : ∀ x ∈ l, x ≠ c) :
    splitFirst c l = (l, none) := by
  induction l with
  | nil => rfl
  | cons x xs ih =>
    have hx : x ≠ c := h x (by simp)
    simp [splitFirst, hx, ih (fun y hy => h y (by simp [hy]))]

theorem splitFirst_append (c : Char) (a b : List Char) (h : ∀ x ∈ a, x ≠ c) :
    splitFirst c (a ++ c :: b) = (a, some b) := by
  induction a with
  | nil => simp [splitFirst]
  | cons x xs ih =>
    have hx : x ≠ c := h x (by simp)
    simp [splitFirst, hx, ih (fun y hy => h y (by simp [hy]))]

theorem splitDots_ne_nil (l : List Char) : splitDots l ≠ [] := by
  cases l with
  | nil => simp [splitDots]
  | cons x xs =>
    simp only [splitDots]
    split
    · simp
    · split <;> simp

theorem splitDots_of_no_dot (l : List Char) (h : ∀ x ∈ l, x ≠ '.') :
    splitDots l = [l] := by
  induction l with
  | nil => rfl
  | cons x xs ih =>
    have hx : x ≠ '.' := h x (by simp)
    have := ih (fun y hy => h y (by simp [hy]))
    simp [splitDots, hx, this]

theorem splitDots_append (a b : List Char) (h : ∀ x ∈ a, x ≠ '.') :
    splitDots (a ++ '.' :: b) = a :: splitDots b := by
  induction a with
  | nil => simp [splitDots]
  | cons x xs ih =>
    have hx : x ≠ '.' := h x (by simp)
    have hrec := ih (fun y hy => h y (by simp [hy]))
    have hrec' : splitDots (xs.append ('.' :: b)) = xs :: splitDots b := hrec
    simp only [List.cons_append, splitDots, if_neg hx, hrec, hrec']

theorem digit_ne_plus (x : Char) (h : isDigitCh x = true) : x ≠ '+' := by
  intro hx; subst hx; exact absurd h (by decide)

theorem digit_ne_dash (x : Char) (h : isDigitCh x = true) : x ≠ '-' := by
  intro hx; subst hx; exact absurd h (by decide)

theorem digit_ne_dot (x : Char) (h : isDigitCh x = true) : x ≠ '.' := by
  intro hx; subst hx; exact absurd h (by decide)

theorem pre_ne_plus (x : Char) (h : isPreChar x = true) : x ≠ '+' := by
  intro hx; subst hx; exact absurd h (by decide)

theorem renderNat_mem_digit (n : Nat) (x : Char) (hx : x ∈ renderNat n) :
    isDigitCh x = true := by
  have h := renderNat_all_digits n
  simp only [List.all_eq_true] at h
  exact h x hx

theorem mem_splitDots (l : List Char) (x : Char) (hx : x ∈ l) :
    x = '.' ∨ ∃ f ∈ splitDots l, x ∈ f := by
  induction l with
  | nil => cases hx
  | cons c cs ih =>
    by_cases hc : c = '.'
    · subst hc
      rcases List.mem_cons.mp hx with h | h
      · exact Or.inl h
      · rcases ih h with h' | ⟨f, hf, hxf⟩
        · exact Or.inl h'
        · exact Or.inr ⟨f, by simp [splitDots, hf], hxf⟩
    · have hne := splitDots_ne_nil cs
      cases hsd : splitDots cs with
      | nil => exact absurd hsd hne
      | cons f0 rest =>
        have hexp : splitDots (c :: cs) = (c :: f0) :: rest := by
          simp [splitDots, hc, hsd]
        rcases List.mem_cons.mp hx with h | h
        · subst h
          exact Or.inr ⟨x :: f0, by simp [hexp], by simp⟩
        · rcases ih h with h' | ⟨f, hf, hxf⟩
          · exact Or.inl h'
          · rw [hsd] at hf
            rcases List.mem_cons.mp hf with rfl | hf'
            · exact Or.inr ⟨c :: f, by simp [hexp], by simp [hxf]⟩
            · exact Or.inr ⟨f, by simp [hexp, hf'], hxf⟩

theorem validPre_chars (p : List Char) (h : validPre p = true) (x : Char) (hx : x ∈ p) :
    isPreChar x = true ∨ x = '.' := by
  rcases mem_splitDots p x hx with h' | ⟨f, hf, hxf⟩
  · exact Or.inr h'
  · left
    simp only [validPre, List.all_eq_true] at h
    have hfrag := h f hf
    simp only [validPreFrag, Bool.and_eq_true] at hfrag
    have hall := hfrag.1.2
    simp only [List.all_eq_true] at hall
    exact hall x hxf

theorem validBuild_chars (b : List Char) (h : validBuild b = true) (x : Char)
    (hx : x ∈ b) : isPreChar x = true ∨ x = '.' := by
  rcases mem_splitDots b x hx with h' | ⟨f, hf, hxf⟩
  · exact Or.inr h'
  · left
    simp only [validBuild, List.all_eq_true] at h
    have hfrag := h f hf
    simp only [validBuildFrag, Bool.and_eq_true] at hfrag
    have hall := hfrag.2
    simp only [List.all_eq_true] at hall
    exact hall x hxf

theorem validPre_ne_plus (p : List Char) (h : validPre p = true) (x : Char)
    (hx : x ∈ p) : x ≠ '+' := by
  rcases validPre_chars p h x hx with h' | h'
  · exact pre_ne_plus x h'
  · subst h'; decide

theorem coreMem3 (ma m1 p1 : Nat) (x : Char)
    (hx : x ∈ renderNat ma ++ '.' :: (renderNat m1 ++ '.' :: renderNat p1)) :
    isDigitCh x = true ∨ x = '.' := by
  simp only [List.mem_append, List.mem_cons] at hx
  rcases hx with h | h | h | h | h
  · exact Or.inl (renderNat_mem_digit _ _ h)
  · exact Or.inr h
  · exact Or.inl (renderNat_mem_digit _ _ h)
  · exact Or.inr h
  · exact Or.inl (renderNat_mem_digit _ _ h)

theorem coreMem2 (ma m1 : Nat) (x : Char)
    (hx : x ∈ renderNat ma ++ '.' :: renderNat m1) :
    isDigitCh x = true ∨ x = '.' := by
  simp only [List.mem_append, List.mem_cons] at hx
  rcases hx with h | h | h
  · exact Or.inl (renderNat_mem_digit _ _ h)
  · exact Or.inr h
  · exact Or.inl (renderNat_mem_digit _ _ h)

theorem coreNoPlus3 (ma m1 p1 : Nat) (x : Char)
    (hx : x ∈ renderNat ma ++ '.' :: (renderNat m1 ++ '.' :: renderNat p1)) :
    x ≠ '+' := by
  rcases coreMem3 ma m1 p1 x hx with h | h
  · exact digit_ne_plus x h
  · subst h; decide

theorem coreNoDash3 (ma m1 p1 : Nat) (x : Char)
    (hx : x ∈ renderNat ma ++ '.' :: (renderNat m1 ++ '.' :: renderNat p1)) :
    x ≠ '-' := by
  rcases coreMem3 ma m1 p1 x hx with h | h
  · exact digit_ne_dash x h
  · subst h; decide

theorem splitDotsCore3 (ma m1 p1 : Nat) :
    splitDots (renderNat ma ++ '.' :: (renderNat m1 ++ '.' :: renderNat p1)) =
      [renderNat ma, renderNat m1, renderNat p1] := by
  rw [splitDots_append _ _ (fun x hx => digit_ne_dot x (renderNat_mem_digit _ _ hx)),
    splitDots_append _ _ (fun x hx => digit_ne_dot x (renderNat_mem_digit _ _ hx)),
    splitDots_of_no_dot _ (fun x hx => digit_ne_dot x (renderNat_mem_digit _ _ hx))]

theorem splitDotsCore2 (ma m1 : Nat) :
    splitDots (renderNat ma ++ '.' :: renderNat m1) =
      [renderNat ma, renderNat m1] := by
  rw [splitDots_append _ _ (fun x hx => digit_ne_dot x (renderNat_mem_digit _ _ hx)),
    splitDots_of_no_dot _ (fun x hx => digit_ne_dot x (renderNat_mem_digit _ _ hx))]

/-- Full-match inversion of rendering: a `PartialVersion` whose fields are
grammar-valid (patch only with minor, prerelease/build only with patch,
prerelease/build matching their groups) is recovered exactly by matching
its own `str(...)` rendering against `PARTIAL_VERSION_PATTERN`. -/
theorem fullmatchPV_pvChars (v : PartialVersion)
    (hmp : v.patch.isSome → v.minor.isSome)
    (hpre : v.prerelease.isSome → v.patch.isSome)
    (hbu : v.build.isSome → v.patch.isSome)
    (hvp : ∀ p, v.prerelease = some p → validPre p = true)
    (hvb : ∀ b, v.build = some b → validBuild b = true) :
    fullmatchPV (pvChars v) = some v := by
  obtain ⟨ma, mi, pa, pre, bu⟩ := v
  cases mi with
  | none =>
    have hpa : pa = none := by
      cases pa with
      | none => rfl
      | some _ => simp at hmp
    subst hpa
    have hpr : pre = none := by
      cases pre with
      | none => rfl
      | some _ => simp at hpre
    subst hpr
    have hb : bu = none := by
      cases bu with
      | none => rfl
      | some _ => simp at hbu
    subst hb
    have hch : pvChars ⟨ma, none, none, none, none⟩ = renderNat ma := by
      simp [pvChars]
    rw [hch]
    have h1 : splitFirst '+' (renderNat ma) = (renderNat ma, none) :=
      splitFirst_of_not_mem _ _ (fun x hx => digit_ne_plus x (renderNat_mem_digit _ _ hx))
    have h2 : splitFirst '-' (renderNat ma) = (renderNat ma, none) :=
      splitFirst_of_not_mem _ _ (fun x hx => digit_ne_dash x (renderNat_mem_digit _ _ hx))
    have h3 : splitDots (renderNat ma) = [renderNat ma] :=
      splitDots_of_no_dot _ (fun x hx => digit_ne_dot x (renderNat_mem_digit _ _ hx))
    simp [fullmatchPV, h1, h2, h3, parseNumPart_renderNat]
  | some m1 =>
    cases pa with
    | none =>
      have hpr : pre = none := by
        cases pre with
        | none => rfl
        | some _ => simp at hpre
      subst hpr
      have hb : bu = none := by
        cases bu with
        | none => rfl
        | some _ => simp at hbu
      subst hb
      have hch : pvChars ⟨ma, some m1, none, none, none⟩ =
          renderNat ma ++ '.' :: renderNat m1 := by
        simp [pvChars]
      rw [hch]
      have h1 : splitFirst '+' (renderNat ma ++ '.' :: renderNat m1) =
          (renderNat ma ++ '.' :: renderNat m1, none) :=
        splitFirst_of_not_mem _ _ (fun x hx => by
          rcases coreMem2 ma m1 x hx with h | h
          · exact digit_ne_plus x h
          · subst h; decide)
      have h2 : splitFirst '-' (renderNat ma ++ '.' :: renderNat m1) =
          (renderNat ma ++ '.' :: renderNat m1, none) :=
        splitFirst_of_not_mem _ _ (fun x hx => by
          rcases coreMem2 ma m1 x hx with h | h
          · exact digit_ne_dash x h
          · subst h; decide)
      simp [fullmatchPV, h1, h2, splitDotsCore2, parseNumPart_renderNat]
    | some p1 =>
      cases pre with
      | none =>
        cases bu with
        | none =>
          have hch : pvChars ⟨ma, some m1, some p1, none, none⟩ =
              renderNat ma ++ '.' :: (renderNat m1 ++ '.' :: renderNat p1) := by
            simp [pvChars, List.append_assoc]
          rw [hch]
          have h1 := splitFirst_of_not_mem '+' _ (coreNoPlus3 ma m1 p1)
          have h2 := splitFirst_of_not_mem '-' _ (coreNoDash3 ma m1 p1)
          simp [fullmatchPV, h1, h2, splitDotsCore3, parseNumPart_renderNat]
        | some b1 =>
          have hvb' : validBuild b1 = true := hvb b1 rfl
          have hch : pvChars ⟨ma, some m1, some p1, none, some b1⟩ =
              (renderNat ma ++ '.' :: (renderNat m1 ++ '.' :: renderNat p1)) ++
                '+' :: b1 := by
            simp [pvChars, List.append_assoc]
          rw [hch]
          have h1 := splitFirst_append '+' _ b1 (coreNoPlus3 ma m1 p1)
          have h2 := splitFirst_of_not_mem '-' _ (coreNoDash3 ma m1 p1)
          simp only [List.append_assoc, List.cons_append] at h1 h2
          simp [fullmatchPV, h1, h2, splitDotsCore3, parseNumPart_renderNat, hvb']
      | some pr =>
        have hvp' : validPre pr = true := hvp pr rfl
        cases bu with
        | none =>
          have hch : pvChars ⟨ma, some m1, some p1, some pr, none⟩ =
              (renderNat ma ++ '.' :: (renderNat m1 ++ '.' :: renderNat p1)) ++
                '-' :: pr := by
            simp [pvChars, List.append_assoc]
          rw [hch]
          have h1 : splitFirst '+'
              ((renderNat ma ++ '.' :: (renderNat m1 ++ '.' :: renderNat p1)) ++
                '-' :: pr) =
              ((renderNat ma ++ '.' :: (renderNat m1 ++ '.' :: renderNat p1)) ++
                '-' :: pr, none) :=
            splitFirst_of_not_mem _ _ (fun x hx => by
              simp only [List.mem_append, List.mem_cons] at hx
              rcases hx with h | h | h
              · exact coreNoPlus3 ma m1 p1 x (by simpa using h)
              · subst h; decide
              · exact validPre_ne_plus pr hvp' x h)
          have h2 := splitFirst_append '-' _ pr (coreNoDash3 ma m1 p1)
          simp only [List.append_assoc, List.cons_append] at h1 h2
          simp [fullmatchPV, h1, h2, splitDotsCore3, parseNumPart_renderNat, hvp']
        | some b1 =>
          have hvb' : validBuild b1 = true := hvb b1 rfl
          have hch : pvChars ⟨ma, some m1, some p1, some pr, some b1⟩ =
              ((renderNat ma ++ '.' :: (renderNat m1 ++ '.' :: renderNat p1)) ++
                '-' :: pr) ++ '+' :: b1 := by
            simp [pvChars, List.append_assoc]
          rw [hch]
          have h1 : splitFirst '+'
              (((renderNat ma ++ '.' :: (renderNat m1 ++ '.' :: renderNat p1)) ++
                '-' :: pr) ++ '+' :: b1) =
              ((renderNat ma ++ '.' :: (renderNat m1 ++ '.' :: renderNat p1)) ++
                '-' :: pr, some b1) :=
            splitFirst_append _ _ _ (fun x hx => by
              simp only [List.mem_append, List.mem_cons] at hx
              rcases hx with h | h | h
              · exact coreNoPlus3 ma m1 p1 x (by simpa using h)
              · subst h; decide
              · exact validPre_ne_plus pr hvp' x h)
          have h2 := splitFirst_append '-' _ pr (coreNoDash3 ma m1 p1)
          simp only [List.append_assoc, List.cons_append] at h1 h2
          simp [fullmatchPV, h1, h2, splitDotsCore3, parseNumPart_renderNat, hvp', hvb']

/-- Any version produced by a successful regex full match has its `minor`
set whenever its `patch` is set: the `patch` group can only match inside
the nested optional group that starts with the `minor` group. -/
theorem fullmatchPV_patch_minor (l : List Char) (v : PartialVersion)
    (h : fullmatchPV l = some v) : v.patch.isSome = true → v.minor.isSome = true := by
  simp only [fullmatchPV] at h
  split at h
  · exact absurd h (by simp)
  · split at h
    · exact absurd h (by simp)
    · split at h
      · split at h
        · exact absurd h (by simp)
        · split at h
          · injection h with h'
            subst h'
            intro hp
            simp at hp
          · exact absurd h (by simp)
      · split at h
        · exact absurd h (by simp)
        · split at h
          · injection h with h'
            subst h'
            intro hp
            simp at hp
          · exact absurd h (by simp)
      · split at h
        · injection h with h'
          subst h'
          intro _
          simp
        · exact absurd h (by simp)
      · exact absurd h (by simp)

/-- Claim C1: parsing `">2.3.4 <2.4 || 2.3.9"` is claimed to succeed with
two OR-clauses, the second an implicit-equality condition on `2.3.9`.  On
the code as written this fails: tokenization succeeds and all clause
entries transform as claimed (second clause `=2.3.9`), but the `selector`
callback passes the keyword argument `validate` to `VersionSelector`,
whose attrs-generated `__init__` accepts only `clauses`, so `parse` raises
a lark `VisitError` wrapping the resulting `TypeError` instead of
returning a selector. -/
theorem claim_C1_parse_raises_TypeError :
    SemselParser.parse ">2.3.4 <2.4 || 2.3.9" true =
      .error (.visitError
        (.typeError "__init__() got an unexpected keyword argument 'validate'")) ∧
    tokenize ">2.3.4 <2.4 || 2.3.9" =
      .ok [[.condition (some ['>'])
              { major := ['2'], minor := some ['3'], patch := some ['4'] },
            .condition (some ['<']) { major := ['2'], minor := some ['4'] }],
           [.condition none
              { major := ['2'], minor := some ['3'], patch := some ['9'] }]] ∧
    List.mapM transformClause
        [[.condition (some ['>'])
            { major := ['2'], minor := some ['3'], patch := some ['4'] },
          .condition (some ['<']) { major := ['2'], minor := some ['4'] }],
         [.condition none
            { major := ['2'], minor := some ['3'], patch := some ['9'] }]] =
      .ok [[.cond ⟨.GT, { major := 2, minor := some 3, patch := some 4 }⟩,
            .cond ⟨.LT, { major := 2, minor := some 4 }⟩],
           [.cond ⟨.EQ, { major := 2, minor := some 3, patch := some 9 }⟩]] := by
  refine ⟨by decide, by decide, by decide⟩

/-- Claim C2 counterexample: `match` between two `VersionCondition`s is
not symmetric — the standard-operator path consults only `self`'s result
set.  At `=1.0.0` versus `>2.0.0` the two directions disagree. -/
theorem claim_C2_counterexample :
    SelEntry.matches (.cond ⟨.EQ, { major := 1, minor := some 0, patch := some 0 }⟩)
        (.cond ⟨.GT, { major := 2, minor := some 0, patch := some 0 }⟩) = false ∧
    SelEntry.matches (.cond ⟨.GT, { major := 2, minor := some 0, patch := some 0 }⟩)
        (.cond ⟨.EQ, { major := 1, minor := some 0, patch := some 0 }⟩) = true := by
  refine ⟨by decide, by decide⟩

/-- Claim C2 (amended): `X.match(Y) = Y.match(X)` holds whenever at least
one of the two entries is a `VersionRange` — `VersionRange.match`
delegates condition arguments back to `VersionCondition._match_range`, and
range/range overlap is symmetric.  For two conditions the dispatch is
directional and can disagree. -/
theorem claim_C2_amended (x y : SelEntry) (h : x.isRange = true ∨ y.isRange = true) :
    x.matches y = y.matches x := by
  cases x with
  | cond c =>
    cases y with
    | cond d => simp [SelEntry.isRange] at h
    | range r => rfl
  | range r =>
    cases y with
    | cond c => rfl
    | range s => simp [SelEntry.matches, VersionRange.matchRange, Bool.and_comm]

/-- Claim C2 witness: the amended symmetry at a concrete condition/range
pair. -/
theorem claim_C2_amended_witness :
    SelEntry.matches
        (.range ⟨{ major := 1, minor := some 0, patch := some 0 },
                 { major := 2, minor := some 0, patch := some 0 }⟩)
        (.cond ⟨.LT, { major := 1, minor := some 5 }⟩) =
      SelEntry.matches (.cond ⟨.LT, { major := 1, minor := some 5 }⟩)
        (.range ⟨{ major := 1, minor := some 0, patch := some 0 },
                 { major := 2, minor := some 0, patch := some 0 }⟩) :=
  claim_C2_amended _ _ (Or.inl rfl)

/-- Claim C3: two minor-constrained (`~`) conditions are claimed to match
exactly when major and minor both agree.  The code instead delegates to
`PartialVersion.__minor__`, which tests `(other.minor or 0) <= (self.minor
or 0)`: `~1.5` matched against `~1.2` returns `True` although the minors
differ (and the reversed call returns `False`), contradicting the source's
own comment that both numbers "must be exactly equal". -/
theorem claim_C3_minor_tilde_not_exact :
    VersionCondition.matchCondition ⟨.MINOR, { major := 1, minor := some 5 }⟩
        ⟨.MINOR, { major := 1, minor := some 2 }⟩ = true ∧
    VersionCondition.matchCondition ⟨.MINOR, { major := 1, minor := some 2 }⟩
        ⟨.MINOR, { major := 1, minor := some 5 }⟩ = false ∧
    (some 5 : Option Nat) ≠ some 2 := by
  refine ⟨by decide, by decide, by decide⟩

/-- Claim C4: tokenization failures are claimed to surface as
`ParseFailure`.  The `parse` entry point catches only `VisitError`, so the
lark lexer/parser errors for `"<>1.0"` (unexpected character after the
`<` operator) and for the empty string (unexpected end of input) propagate
as grammar-engine-internal exceptions, not as the library's
`ParseFailure` — contradicting the repository's own parser tests. -/
theorem claim_C4_lexer_errors_uncaught :
    SemselParser.parse "<>1.0" true = .error .unexpectedCharacters ∧
    SemselParser.parse "" true = .error .unexpectedEOF ∧
    PyErr.isSemselException .unexpectedCharacters = false ∧
    PyErr.isSemselException .unexpectedEOF = false ∧
    PyErr.isLarkInternal .unexpectedCharacters = true ∧
    PyErr.isLarkInternal .unexpectedEOF = true := by
  refine ⟨by decide, by decide, by decide, by decide, by decide, by decide⟩

/-- Claim C5: when transformation wraps an exception in a `VisitError`,
`parse` re-raises the original exception itself exactly when it is one of
the library's declared kinds (`ParseFailure`/`InvalidExpression`), and
re-raises the `VisitError` unchanged otherwise. -/
theorem claim_C5_visit_error_propagation (content : String) (validate : Bool)
    (t : RawTree) (e : PyErr) (h1 : tokenize content = .ok t)
    (h2 : transformTree validate t = .error (.visitError e)) :
    SemselParser.parse content validate =
      .error (if e.isSemselException then e else .visitError e) := by
  simp only [SemselParser.parse, h1, h2]
  by_cases he : e.isSemselException <;> simp [he]

/-- Claim C5 witness: a transformation-level `InvalidExpression` (range
with non-increasing endpoints) is unwrapped to itself, while the
selector-callback `TypeError` stays wrapped in the `VisitError`. -/
theorem claim_C5_witness :
    SemselParser.parse "2.0 - 1.0" true =
      .error (.invalidExpression
        "Ending version 1.0 is less or equal to the starting version 2.0 in '2.0 - 1.0'") ∧
    SemselParser.parse ">2.3.4 <2.4 || 2.3.9" true =
      .error (.visitError
        (.typeError "__init__() got an unexpected keyword argument 'validate'")) := by
  constructor
  · have h := claim_C5_visit_error_propagation "2.0 - 1.0" true
      [[.range { major := ['2'], minor := some ['0'] }
          { major := ['1'], minor := some ['0'] }]]
      (.invalidExpression
        "Ending version 1.0 is less or equal to the starting version 2.0 in '2.0 - 1.0'")
      (by decide) (by decide)
    simpa [PyErr.isSemselException] using h
  · have h := claim_C5_visit_error_propagation ">2.3.4 <2.4 || 2.3.9" true
      [[.condition (some ['>'])
          { major := ['2'], minor := some ['3'], patch := some ['4'] },
        .condition (some ['<']) { major := ['2'], minor := some ['4'] }],
       [.condition none { major := ['2'], minor := some ['3'], patch := some ['9'] }]]
      (.typeError "__init__() got an unexpected keyword argument 'validate'")
      (by decide) (by decide)
    simpa [PyErr.isSemselException] using h

/-- Claim C6 counterexample: on a non-matching string `from_string` raises
the builtin `ValueError`, which is not one of the exception kinds declared
in `src/semsel/exceptions.py` — the library declares no
`InvalidVersionFormat` error kind. -/
theorem claim_C6_counterexample :
    PartialVersion.from_string "abc" =
      .error (.valueError "'abc' is not a valid partial semantic version") ∧
    PyErr.isSemselException
      (.valueError "'abc' is not a valid partial semantic version") = false := by
  refine ⟨by decide, by decide⟩

/-- Claim C6 (amended): for every string that does not fully match the
partial-version pattern, `from_string` fails with a descriptive builtin
`ValueError` embedding the offending string (not with a library-declared
exception kind). -/
theorem claim_C6_amended (s : String) (h : fullmatchPV s.toList = none) :
    PartialVersion.from_string s =
      .error (.valueError ("'" ++ s ++ "' is not a valid partial semantic version")) := by
  have h' : fullmatchPV s.data = none := h
  simp [PartialVersion.from_string, h']

/-- Claim C6 witness: the amended statement at `"not.a.version!"`. -/
theorem claim_C6_witness :
    PartialVersion.from_string "not.a.version!" =
      .error (.valueError "'not.a.version!' is not a valid partial semantic version") :=
  claim_C6_amended "not.a.version!" (by decide)

/-- Claim C7: `PartialVersion.compare` orders the Semver prerelease chain
`1.0.0-alpha < 1.0.0-alpha.1 < 1.0.0-alpha.beta < 1.0.0-beta <
1.0.0-beta.2 < 1.0.0-beta.11 < 1.0.0-rc.1 < 1.0.0` strictly (each
comparison returns `-1`, and reversed `1`). -/
theorem claim_C7_prerelease_chain :
    (PartialVersion.compare
        { major := 1, minor := some 0, patch := some 0, prerelease := some "alpha".toList }
        { major := 1, minor := some 0, patch := some 0, prerelease := some "alpha.1".toList } = -1) ∧
    (PartialVersion.compare
        { major := 1, minor := some 0, patch := some 0, prerelease := some "alpha.1".toList }
        { major := 1, minor := some 0, patch := some 0, prerelease := some "alpha.beta".toList } = -1) ∧
    (PartialVersion.compare
        { major := 1, minor := some 0, patch := some 0, prerelease := some "alpha.beta".toList }
        { major := 1, minor := some 0, patch := some 0, prerelease := some "beta".toList } = -1) ∧
    (PartialVersion.compare
        { major := 1, minor := some 0, patch := some 0, prerelease := some "beta".toList }
        { major := 1, minor := some 0, patch := some 0, prerelease := some "beta.2".toList } = -1) ∧
    (PartialVersion.compare
        { major := 1, minor := some 0, patch := some 0, prerelease := some "beta.2".toList }
        { major := 1, minor := some 0, patch := some 0, prerelease := some "beta.11".toList } = -1) ∧
    (PartialVersion.compare
        { major := 1, minor := some 0, patch := some 0, prerelease := some "beta.11".toList }
        { major := 1, minor := some 0, patch := some 0, prerelease := some "rc.1".toList } = -1) ∧
    (PartialVersion.compare
        { major := 1, minor := some 0, patch := some 0, prerelease := some "rc.1".toList }
        { major := 1, minor := some 0, patch := some 0 } = -1) ∧
    (PartialVersion.compare { major := 1, minor := some 0, patch := some 0 }
        { major := 1, minor := some 0, patch := some 0, prerelease := some "rc.1".toList } = 1) := by
  refine ⟨by decide, by decide, by decide, by decide, by decide, by decide, by decide,
    by decide⟩

/-- Claim C8: rendering a `PartialVersion` with grammar-valid fields and
parsing the rendering back with `from_string` recovers the version
exactly, and Python `==` (which ignores build metadata by construction)
holds between the parsed result and the original. -/
theorem claim_C8_roundtrip (v : PartialVersion)
    (hmp : v.patch.isSome → v.minor.isSome)
    (hpre : v.prerelease.isSome → v.patch.isSome)
    (hbu : v.build.isSome → v.patch.isSome)
    (hvp : ∀ p, v.prerelease = some p → validPre p = true)
    (hvb : ∀ b, v.build = some b → validBuild b = true) :
    PartialVersion.from_string (pvStr v) = .ok v ∧ v.pyEq v = true := by
  constructor
  · have h := fullmatchPV_pvChars v hmp hpre hbu hvp hvb
    have hl : (pvStr v).data = pvChars v := rfl
    simp [PartialVersion.from_string, hl, h]
  · exact pyEq_self v

/-- Claim C8 witness: the round trip at `1.2.3-alpha.1+b-1`. -/
theorem claim_C8_witness :
    PartialVersion.from_string
        (pvStr { major := 1, minor := some 2, patch := some 3,
                 prerelease := some "alpha.1".toList, build := some "b-1".toList }) =
      .ok { major := 1, minor := some 2, patch := some 3,
            prerelease := some "alpha.1".toList, build := some "b-1".toList } ∧
    PartialVersion.pyEq
        { major := 1, minor := some 2, patch := some 3,
          prerelease := some "alpha.1".toList, build := some "b-1".toList }
        { major := 1, minor := some 2, patch := some 3,
          prerelease := some "alpha.1".toList, build := some "b-1".toList } = true :=
  claim_C8_roundtrip _ (by decide) (by decide) (by decide)
    (fun p hp => by cases hp; decide) (fun b hb => by cases hb; decide)

/-- Claim C9 counterexample: `from_tuple` (equivalently the direct
constructor) happily produces a version with `patch` set and `minor`
unset — no construction-time validation exists on these paths. -/
theorem claim_C9_counterexample :
    (PartialVersion.from_tuple (1, none, some 3, none, none)).patch.isSome = true ∧
    (PartialVersion.from_tuple (1, none, some 3, none, none)).minor = none := by
  refine ⟨by decide, by decide⟩

/-- Claim C9 (amended): only `from_string` guarantees the invariant — every
version it successfully produces has `minor` set whenever `patch` is set;
the direct constructor, `from_dict` and `from_tuple` enforce nothing. -/
theorem claim_C9_amended (s : String) (v : PartialVersion)
    (h : PartialVersion.from_string s = .ok v) :
    v.patch.isSome = true → v.minor.isSome = true := by
  have hm : fullmatchPV s.toList = some v := by
    unfold PartialVersion.from_string at h
    cases hm : fullmatchPV s.toList with
    | some w => rw [hm] at h; injection h with h'; rw [h']
    | none => rw [hm] at h; exact absurd h (by simp)
  exact fullmatchPV_patch_minor _ _ hm

/-- Claim C9 witness: the amended invariant at `"1.2.3"`. -/
theorem claim_C9_witness :
    ({ major := 1, minor := some 2, patch := some 3 } : PartialVersion).minor.isSome = true :=
  claim_C9_amended "1.2.3" _ (by decide) (by decide)

/-- Claim C10: `VersionCondition` and `VersionRange` are declared with
`cmp=False`, so Python `==` between two distinct instances is object
identity — equal-fielded but separately constructed objects compare
unequal — while `PartialVersion.__eq__` is structural via `compare` and
ignores identity. -/
theorem claim_C10_identity_eq (c : VersionCondition) (r : VersionRange)
    (v : PartialVersion) (i j : Nat) (h : i ≠ j) :
    pyEqCondObj ⟨c, i⟩ ⟨c, j⟩ = false ∧ pyEqRangeObj ⟨r, i⟩ ⟨r, j⟩ = false ∧
      pyEqPVObj ⟨v, i⟩ ⟨v, j⟩ = true := by
  refine ⟨?_, ?_, ?_⟩
  · simp [pyEqCondObj, h]
  · simp [pyEqRangeObj, h]
  · simp [pyEqPVObj, PartialVersion.pyEq, compare_self]

/-- Claim C10 witness: identity inequality and structural equality at
concrete objects with ids 0 and 1. -/
theorem claim_C10_witness :
    pyEqCondObj ⟨⟨.EQ, { major := 1, minor := some 0 }⟩, 0⟩
        ⟨⟨.EQ, { major := 1, minor := some 0 }⟩, 1⟩ = false ∧
    pyEqRangeObj ⟨⟨{ major := 1 }, { major := 2 }⟩, 0⟩
        ⟨⟨{ major := 1 }, { major := 2 }⟩, 1⟩ = false ∧
    pyEqPVObj ⟨{ major := 1, minor := some 0 }, 0⟩
        ⟨{ major := 1, minor := some 0 }, 1⟩ = true :=
  claim_C10_identity_eq _ _ _ 0 1 (by decide)

end Semsel
